import Mathlib

/-!
# Verification of the `autoeval` control plane

A shallow embedding of the parts of the `autoeval` repository that the
frozen claims are about, together with theorems settling each claim.

* `Security` embeds `src/autoeval/security.py` (shell-command validation),
  including the `shlex.split` tokenizer (POSIX mode, whitespace-split,
  comments disabled) that the module relies on.
* `Tracker` embeds `src/autoeval/tracker.py` (sub-task ledger).
* `Executor` embeds the shell-run handler and the session completion
  reconciliation of `src/autoeval/executor.py`.
* `Policy` embeds `PolicyEngine.evaluate` of `src/autoeval/policy.py`.
* `Providers` embeds the server-request auto-answering of the protocol
  dispatch loop in `src/autoeval/providers.py`.
* `Rpi` embeds `init_rpi_artifacts` of `src/autoeval/rpi.py` over an
  abstract file-system map.
* `Orchestrator` embeds the run loop and metrics writing of
  `src/autoeval/orchestrator.py`.

Python strings are modelled by Lean `String`; character classes (`\s`,
`str.strip`, `str.lower`) are modelled over their ASCII members, which is
the alphabet all commands and constants of the source use.
-/

namespace Autoeval

namespace Security

/-- Whitespace recognised by `shlex` (`shlex.whitespace = " \t\r\n"`). -/
def shlexWs (c : Char) : Bool :=
  c = ' ' ∨ c = '\t' ∨ c = '\r' ∨ c = '\n'

/-- ASCII members of the regex class `\s` and of `str.strip()`'s default
whitespace set: space, tab, newline, carriage return, form feed,
vertical tab. -/
def pyWs (c : Char) : Bool :=
  c = ' ' ∨ c = '\t' ∨ c = '\n' ∨ c = '\r' ∨ c = '\x0c' ∨ c = '\x0b'

/-- `str.strip()` with no argument: drop leading and trailing whitespace. -/
def pyStrip (s : String) : String :=
  String.mk ((s.data.dropWhile pyWs).reverse.dropWhile pyWs).reverse

/-- `str.lower()` restricted to ASCII case mapping. -/
def pyLower (s : String) : String :=
  String.mk (s.data.map Char.toLower)

/-- Python `s.startswith(pre)`, via character lists (reduces in the
kernel, unlike `String.isPrefixOf`). -/
def pyStartsWith (s pre : String) : Bool :=
  pre.data.isPrefixOf s.data

/-- `needle` occurs contiguously in `haystack` (as lists of characters). -/
def listInfixOf (needle : List Char) : List Char → Bool
  | [] => needle.isEmpty
  | c :: rest => needle.isPrefixOf (c :: rest) || listInfixOf needle rest

/-- Python `needle in haystack` on strings (substring containment). -/
def strContains (haystack needle : String) : Bool :=
  listInfixOf needle.data haystack.data

/-! ### `shlex.split`

`security.py` tokenizes via `shlex.split(segment)`, i.e. the CPython
lexer with `posix=True`, `whitespace_split=True`, `commenters=""` and
`punctuation_chars=""`.  Under that configuration the lexer is the state
machine below; a `ValueError` ("No closing quotation" / "No escaped
character") is modelled as `none`. -/

/-- Lexer states of `shlex.read_token` under the configuration used by
`shlex.split`: outside a token, inside a word, inside single/double
quotes, and after an escaping backslash (from word context or from
inside double quotes). -/
inductive LexState where
  | space
  | word
  | squote
  | dquote
  | escWord
  | escDquote
deriving DecidableEq, Repr

/-- One pass of `shlex.read_token`, flattened over the whole input.
`tok` is the token built so far, `quoted` records whether the current
token saw a quote (an empty quoted token is still emitted), `acc` the
tokens already emitted. -/
def shlexGo : List Char → LexState → List Char → Bool → List String → Option (List String)
  | [], st, tok, quoted, acc =>
    match st with
    | .space => some acc
    | .word => some (if tok.isEmpty ∧ ¬quoted then acc else acc ++ [String.mk tok])
    | _ => none
  | c :: rest, st, tok, quoted, acc =>
    match st with
    | .space =>
      if shlexWs c then
        if tok.isEmpty ∧ ¬quoted then shlexGo rest .space tok quoted acc
        else shlexGo rest .space [] false (acc ++ [String.mk tok])
      else if c = '\\' then shlexGo rest .escWord tok quoted acc
      else if c = '\'' then shlexGo rest .squote tok true acc
      else if c = '"' then shlexGo rest .dquote tok true acc
      else shlexGo rest .word (tok ++ [c]) quoted acc
    | .word =>
      if shlexWs c then
        if tok.isEmpty ∧ ¬quoted then shlexGo rest .space tok quoted acc
        else shlexGo rest .space [] false (acc ++ [String.mk tok])
      else if c = '\'' then shlexGo rest .squote tok true acc
      else if c = '"' then shlexGo rest .dquote tok true acc
      else if c = '\\' then shlexGo rest .escWord tok quoted acc
      else shlexGo rest .word (tok ++ [c]) quoted acc
    | .squote =>
      if c = '\'' then shlexGo rest .word tok quoted acc
      else shlexGo rest .squote (tok ++ [c]) quoted acc
    | .dquote =>
      if c = '"' then shlexGo rest .word tok quoted acc
      else if c = '\\' then shlexGo rest .escDquote tok quoted acc
      else shlexGo rest .dquote (tok ++ [c]) quoted acc
    | .escWord => shlexGo rest .word (tok ++ [c]) quoted acc
    | .escDquote =>
      -- inside double quotes only the quote itself or the escape
      -- character may be escaped; otherwise the backslash is kept
      if c ≠ '\\' ∧ c ≠ '"' then shlexGo rest .dquote (tok ++ ['\\', c]) quoted acc
      else shlexGo rest .dquote (tok ++ [c]) quoted acc

/-- `shlex.split(s)` as used by `security.py`; `none` models the
`ValueError` raised on unbalanced quoting or a trailing escape. -/
def shlexSplit (s : String) : Option (List String) :=
  shlexGo s.data .space [] false []

/-! ### The two `re.split` delimiters of `security.py`

`split_command_segments` splits on `\s*(?:&&|\|\|)\s*` and then on
`(?<!["\'])\s*;\s*(?!["\'])`; `extract_commands` splits on the latter
pattern directly.  Both patterns are embedded as leftmost-match scanners
with the backtracking behaviour of the Python engine. -/

/-- Length of the maximal run of `\s` characters at the head. -/
def wsRunLen (l : List Char) : Nat :=
  (l.takeWhile pyWs).length

/-- Match `\s*(?:&&|\|\|)\s*` anchored at the head of `l`; returns the
number of characters consumed.  The leading `\s*` must reach the
operator greedily (shorter expansions put a whitespace character where
`&&`/`||` is required, so they can never match). -/
def matchAndOrAt (l : List Char) : Option Nat :=
  match l.drop (wsRunLen l) with
  | '&' :: '&' :: r => some (wsRunLen l + 2 + wsRunLen r)
  | '|' :: '|' :: r => some (wsRunLen l + 2 + wsRunLen r)
  | _ => none

/-- `re.split(r"\s*(?:&&|\|\|)\s*", s)` as a scanner over the character
list; `cur` holds the characters of the current (reversed) part.  The
recursion is driven by `fuel`: every step consumes at least one
character (a match is never empty, it contains the operator), so
`l.length + 1` fuel always reaches the base case. -/
def splitAndOrGo (fuel : Nat) (l : List Char) (cur : List Char) : List String :=
  match fuel with
  | 0 => []
  | fuel + 1 =>
    match l with
    | [] => [String.mk cur.reverse]
    | c :: rest =>
      match matchAndOrAt (c :: rest) with
      | some k => String.mk cur.reverse :: splitAndOrGo fuel ((c :: rest).drop k) []
      | none => splitAndOrGo fuel rest (c :: cur)

/-- `re.split(r"\s*(?:&&|\|\|)\s*", s)`. -/
def splitAndOr (s : String) : List String :=
  splitAndOrGo (s.data.length + 1) s.data []

/-- Leftmost quote characters blocking the `;` lookarounds. -/
def isQuoteChar (c : Char) : Bool := c = '"' ∨ c = '\''

/-- `\s*;\s*(?!["\'])` anchored at the head of `l`.  The trailing `\s*`
is greedy but backtracks one character when the lookahead `(?!["\'])`
fails (the next-shorter expansion ends on a whitespace character, which
always satisfies the lookahead). -/
def matchSemiCore (l : List Char) : Option Nat :=
  match l.drop (wsRunLen l) with
  | ';' :: r =>
    match r.drop (wsRunLen r) with
    | [] => some (wsRunLen l + 1 + wsRunLen r)
    | c :: _ =>
      if isQuoteChar c then
        if wsRunLen r = 0 then none else some (wsRunLen l + 1 + (wsRunLen r - 1))
      else some (wsRunLen l + 1 + wsRunLen r)
  | _ => none

/-- Match `(?<!["\'])\s*;\s*(?!["\'])` anchored at the head of `l`,
where `prev` is the character immediately before the match position
(the negative lookbehind succeeds at the start of the string). -/
def matchSemiAt (prev : Option Char) (l : List Char) : Option Nat :=
  match prev with
  | some c => if isQuoteChar c then none else matchSemiCore l
  | none => matchSemiCore l

/-- `re.split` scanner for the `;` pattern; `prev` tracks the character
before the current position for the lookbehind.  As above, every step
consumes at least one character (a match contains the `;`), so
`l.length + 1` fuel always reaches the base case. -/
def splitSemiGo (fuel : Nat) (l : List Char) (prev : Option Char) (cur : List Char) :
    List String :=
  match fuel with
  | 0 => []
  | fuel + 1 =>
    match l with
    | [] => [String.mk cur.reverse]
    | c :: rest =>
      match matchSemiAt prev (c :: rest) with
      | some k =>
        String.mk cur.reverse ::
          splitSemiGo fuel ((c :: rest).drop k) (((c :: rest).take k).getLast?) []
      | none => splitSemiGo fuel rest (some c) (c :: cur)

/-- `re.split(r'(?<!["\'])\s*;\s*(?!["\'])', s)`. -/
def splitSemi (s : String) : List String :=
  splitSemiGo (s.data.length + 1) s.data none []

/-- `split_command_segments` (security.py): split on `&&`/`||`, then on
the guarded `;` pattern, strip each piece, keep the non-empty ones. -/
def split_command_segments (commandString : String) : List String :=
  let segments := splitAndOr commandString
  segments.foldl
    (fun result segment =>
      (splitSemi segment).foldl
        (fun result sub =>
          let sub := pyStrip sub
          if sub = "" then result else result ++ [sub])
        result)
    []

/-! ### `extract_commands` and the allow-list validators -/

/-- `os.path.basename` for POSIX paths: everything after the last `/`. -/
def pyBasename (s : String) : String :=
  match (s.data.reverse.takeWhile (fun c => c ≠ '/')) with
  | rev => String.mk rev.reverse

/-- The shell keywords skipped by the token loop of `extract_commands`. -/
def SHELL_KEYWORDS : List String :=
  ["if", "then", "else", "elif", "fi", "for", "while", "until", "do",
   "done", "case", "esac", "in", "!", "\x7b", "\x7d"]

/-- The control-operator tokens that make the loop expect a command. -/
def COMMAND_SEPARATORS : List String := ["|", "||", "&&", "&"]

/-- `ALLOWED_COMMANDS` (security.py). -/
def ALLOWED_COMMANDS : List String :=
  ["ls", "cat", "head", "tail", "wc", "grep", "find", "cp", "mv", "mkdir",
   "rm", "touch", "chmod", "unzip", "pwd", "cd", "echo", "printf", "curl",
   "which", "env", "python", "python3", "npm", "npx", "node", "git", "ps",
   "lsof", "sleep", "pkill", "init.sh"]

/-- `COMMANDS_NEEDING_EXTRA_VALIDATION` (security.py). -/
def COMMANDS_NEEDING_EXTRA_VALIDATION : List String :=
  ["pkill", "chmod", "init.sh", "rm"]

/-- The per-segment token loop of `extract_commands`: collect the
basename of every token in command position, skipping separators (which
re-arm the command position), shell keywords, flag-like tokens and
variable assignments. -/
def extractTokenLoop : List String → Bool → List String → List String
  | [], _, cmds => cmds
  | token :: rest, expectCommand, cmds =>
    if token ∈ COMMAND_SEPARATORS then extractTokenLoop rest true cmds
    else if token ∈ SHELL_KEYWORDS then extractTokenLoop rest expectCommand cmds
    else if pyStartsWith token "-" then extractTokenLoop rest expectCommand cmds
    else if strContains token "=" ∧ ¬(pyStartsWith token "=") then
      extractTokenLoop rest expectCommand cmds
    else if expectCommand then extractTokenLoop rest false (cmds ++ [pyBasename token])
    else extractTokenLoop rest expectCommand cmds

/-- The segment loop of `extract_commands`; a `shlex` `ValueError` in
any segment aborts the whole extraction with `[]` (`return []`). -/
def extractSegmentLoop : List String → List String → List String
  | [], cmds => cmds
  | segment :: rest, cmds =>
    let segment := pyStrip segment
    if segment = "" then extractSegmentLoop rest cmds
    else
      match shlexSplit segment with
      | none => []
      | some tokens =>
        if tokens = [] then extractSegmentLoop rest cmds
        else extractSegmentLoop rest (extractTokenLoop tokens true cmds)

/-- `extract_commands` (security.py). -/
def extract_commands (commandString : String) : List String :=
  extractSegmentLoop (splitSemi commandString) []

/-- `ValidationResult` (security.py). -/
structure ValidationResult where
  allowed : Bool
  reason : String := ""
deriving DecidableEq, Repr

/-- `validate_pkill_command` (security.py).  A target token that is all
whitespace would make `target.split()[0]` raise `IndexError` in the
source; that (propagating) exception is modelled as the empty string,
which is likewise never a valid process name. -/
def validate_pkill_command (commandString : String) : ValidationResult :=
  let allowedProcessNames : List String := ["node", "npm", "npx", "vite", "next"]
  match shlexSplit commandString with
  | none => ⟨false, "Could not parse pkill command"⟩
  | some tokens =>
    match tokens with
    | [] => ⟨false, "Empty pkill command"⟩
    | _ :: rest =>
      let args := rest.filter (fun t => ¬(pyStartsWith t "-"))
      match args.getLast? with
      | none => ⟨false, "pkill requires a process name"⟩
      | some target =>
        let target :=
          if strContains target " " then
            ((target.data.dropWhile pyWs).takeWhile (fun c => ¬pyWs c)) |> String.mk
          else target
        if target ∈ allowedProcessNames then ⟨true, ""⟩
        else ⟨false, "pkill only allowed for dev processes"⟩

/-- Does `s` match `^[ugoa]*\+x$`? -/
def isChmodMode : List Char → Bool
  | ['+', 'x'] => true
  | c :: rest =>
    if c = 'u' ∨ c = 'g' ∨ c = 'o' ∨ c = 'a' then isChmodMode rest else false
  | [] => false

/-- The mode/files scan of `validate_chmod_command`: the first token is
the mode, the rest are files; any flag-like token rejects. -/
def chmodScan : List String → Option String → List String → ValidationResult
  | [], mode, files =>
    match mode with
    | none => ⟨false, "chmod requires a mode"⟩
    | some m =>
      if files = [] then ⟨false, "chmod requires at least one file"⟩
      else if isChmodMode m.data then ⟨true, ""⟩
      else ⟨false, "chmod only allowed with +x mode, got: " ++ m⟩
  | token :: rest, mode, files =>
    if pyStartsWith token "-" then ⟨false, "chmod flags are not allowed"⟩
    else
      match mode with
      | none => chmodScan rest (some token) files
      | some m => chmodScan rest (some m) (files ++ [token])

/-- `validate_chmod_command` (security.py). -/
def validate_chmod_command (commandString : String) : ValidationResult :=
  match shlexSplit commandString with
  | none => ⟨false, "Could not parse chmod command"⟩
  | some tokens =>
    match tokens with
    | [] => ⟨false, "Not a chmod command"⟩
    | first :: rest =>
      if first ≠ "chmod" then ⟨false, "Not a chmod command"⟩
      else chmodScan rest none []

/-- `validate_init_script` (security.py). -/
def validate_init_script (commandString : String) : ValidationResult :=
  match shlexSplit commandString with
  | none => ⟨false, "Could not parse init script command"⟩
  | some tokens =>
    match tokens with
    | [] => ⟨false, "Empty command"⟩
    | script :: _ =>
      if script = "./init.sh" ∨ "/init.sh".data.isSuffixOf script.data then ⟨true, ""⟩
      else ⟨false, "Only ./init.sh is allowed, got: " ++ script⟩

/-- `dangerous_paths` of `validate_rm_command` (security.py), in source
order.  (The source stores them in a Python `set`; only which reason
string is reported can depend on the iteration order, not whether the
command is allowed.) -/
def DANGEROUS_PATHS : List String :=
  ["/", "/etc", "/usr", "/var", "/bin", "/sbin", "/lib", "/opt", "/boot",
   "/root", "/home", "/Users", "/System", "/Library", "/Applications",
   "/private", "~"]

/-- `path.rstrip("/") or "/"`: drop trailing slashes; an emptied path
collapses back to `"/"`. -/
def rmNormalize (path : String) : String :=
  let stripped := String.mk (path.data.reverse.dropWhile (fun c => c = '/')).reverse
  if stripped = "" then "/" else stripped

/-- `s.count("/")`: number of `/` characters. -/
def slashCount (s : String) : Nat :=
  (s.data.filter (fun c => c = '/')).length

/-- The nested check of `validate_rm_command` for one path against one
dangerous root: equal to it, or directly beneath it (at most one more
path segment). -/
def rmTooClose (normalized dangerous : String) : Bool :=
  normalized = dangerous ∨
    (pyStartsWith normalized (dangerous ++ "/") ∧
      slashCount normalized ≤ slashCount dangerous + 1)

/-- The per-path check of `validate_rm_command`. -/
def rmPathCheck (path : String) : ValidationResult :=
  let normalized := rmNormalize path
  if normalized ∈ DANGEROUS_PATHS then
    ⟨false, "rm on system directory is not allowed"⟩
  else if (DANGEROUS_PATHS.filter (fun d => d ≠ "/")).any (rmTooClose normalized) then
    ⟨false, "rm too close to system directory is not allowed"⟩
  else if path = "/*" ∨ pyStartsWith path "/*" then
    ⟨false, "rm on root wildcard is not allowed"⟩
  else ⟨true, ""⟩

/-- `validate_rm_command` (security.py). -/
def validate_rm_command (commandString : String) : ValidationResult :=
  match shlexSplit commandString with
  | none => ⟨false, "Could not parse rm command"⟩
  | some tokens =>
    match tokens with
    | [] => ⟨false, "Not an rm command"⟩
    | first :: rest =>
      if first ≠ "rm" then ⟨false, "Not an rm command"⟩
      else
        let paths := rest.filter (fun t => ¬(pyStartsWith t "-"))
        if paths = [] then ⟨false, "rm requires at least one path"⟩
        else
          match paths.find? (fun p => ¬(rmPathCheck p).allowed) with
          | some p => rmPathCheck p
          | none => ⟨true, ""⟩

/-- `get_command_for_validation` (security.py): the first segment whose
extracted commands contain `cmd`, else `""`. -/
def get_command_for_validation (cmd : String) (segments : List String) : String :=
  match segments.find? (fun segment => cmd ∈ extract_commands segment) with
  | some segment => segment
  | none => ""

/-- Dispatch of `validate_command` to the extra validator for `cmd`. -/
def extraValidate (cmd : String) (cmdSegment : String) : ValidationResult :=
  if cmd = "pkill" then validate_pkill_command cmdSegment
  else if cmd = "chmod" then validate_chmod_command cmdSegment
  else if cmd = "init.sh" then validate_init_script cmdSegment
  else validate_rm_command cmdSegment

/-- The command loop of `validate_command`: every command must be on
the allow-list and, where required, pass its extra validator. -/
def validateLoop (command : String) (segments : List String) :
    List String → ValidationResult
  | [] => ⟨true, ""⟩
  | cmd :: rest =>
    if cmd ∉ ALLOWED_COMMANDS then
      ⟨false, "Command " ++ cmd ++ " is not in the allowed commands list"⟩
    else if cmd ∈ COMMANDS_NEEDING_EXTRA_VALIDATION then
      let seg := get_command_for_validation cmd segments
      let cmdSegment := if seg = "" then command else seg
      let result := extraValidate cmd cmdSegment
      if ¬result.allowed then result
      else validateLoop command segments rest
    else validateLoop command segments rest

/-- `validate_command` (security.py). -/
def validate_command (command : String) : ValidationResult :=
  let commands := extract_commands command
  if commands = [] then
    ⟨false, "Could not parse command for security validation"⟩
  else validateLoop command (split_command_segments command) commands

end Security

/-- `SCHEMA_VERSION` (config.py). -/
def SCHEMA_VERSION : Nat := 1

namespace Tracker

/-- One record of the `sub_tasks` list of `feature_list.json`, with the
fields `rpi._default_feature_list` creates (`status` is the only
mutable one). -/
structure SubTask where
  id : String
  phaseId : String
  phase : String
  description : String
  criteria : List String
  status : Bool
deriving DecidableEq, Repr

/-- The parsed content of `feature_list.json`. -/
structure FeaturePayload where
  schemaVersion : Nat
  subTasks : List SubTask
deriving DecidableEq, Repr

/-- The feature file on disk: `none` models a missing file. -/
def FeatureFile := Option FeaturePayload

/-- `load_feature_list` (tracker.py): `read_json` with the default
`{"schema_version": SCHEMA_VERSION, "sub_tasks": []}`. -/
def load_feature_list (file : Option FeaturePayload) : FeaturePayload :=
  file.getD ⟨SCHEMA_VERSION, []⟩

/-- Set `status` on the first sub-task whose `id` matches; `none` when
no sub-task matches. -/
def setStatusFirst (taskId : String) (status : Bool) :
    List SubTask → Option (List SubTask)
  | [] => none
  | task :: rest =>
    if task.id = taskId then some ({ task with status := status } :: rest)
    else (setStatusFirst taskId status rest).map (task :: ·)

/-- `update_sub_task_status` (tracker.py) as a state transformer on the
feature file: the returned file is the disk state after the call, the
`Except` value the raised `KeyError` or the returned payload.
`save_feature_list` (which stamps `schema_version`) only runs after a
matching sub-task was found. -/
def update_sub_task_status (file : Option FeaturePayload) (taskId : String)
    (status : Bool) : Option FeaturePayload × Except String FeaturePayload :=
  let payload := load_feature_list file
  match setStatusFirst taskId status payload.subTasks with
  | none => (file, .error ("unknown sub task: " ++ taskId))
  | some tasks =>
    let saved : FeaturePayload := { payload with schemaVersion := SCHEMA_VERSION, subTasks := tasks }
    (some saved, .ok saved)

/-- `all_completed` (tracker.py): a non-empty task list, all done. -/
def all_completed (file : Option FeaturePayload) : Bool :=
  let tasks := (load_feature_list file).subTasks
  ¬tasks.isEmpty ∧ tasks.all (·.status)

/-- `completion_counts` (tracker.py): `(done, total)`. -/
def completion_counts (file : Option FeaturePayload) : Nat × Nat :=
  let tasks := (load_feature_list file).subTasks
  (tasks.countP (·.status), tasks.length)

end Tracker

namespace Executor

/-- `DANGEROUS_RUN_PATTERNS` (executor.py). -/
def DANGEROUS_RUN_PATTERNS : List String :=
  ["rm -rf /", "mkfs", "shutdown", "reboot", ":(){:|:&};:"]

/-- `RUN_SELECTOR_ALLOWLIST` (executor.py). -/
def RUN_SELECTOR_ALLOWLIST : List String := ["build", "test", "cmd"]

/-- Outcome of the `subprocess.run(["bash", "-lc", cmd], ...)` call:
either the hard wall-clock timeout fired (`subprocess.TimeoutExpired`)
or the child exited with a code and captured streams. -/
inductive ProcOutcome where
  | timedOut
  | exited (code : Int) (stdout stderr : String)
deriving DecidableEq, Repr

/-- The ambient system: what the child process would do for a given
command and timeout.  `_run_shell_command` consults it only after all
security checks pass. -/
def ProcEnv := String → Int → ProcOutcome

/-- The result record built by `_run_shell_command`. -/
structure RunRecord where
  status : String
  cmd : String
  timeoutSec : Int
  exitCode : Option Int
  stdout : String
  stderr : String
deriving DecidableEq, Repr

/-- `_truncate_text` (executor.py). -/
def truncate_text (value : String) (maxChars : Nat) : String :=
  if value.length ≤ maxChars then value
  else String.mk (value.data.take maxChars) ++ "\n...[truncated]"

/-- `_run_shell_command` (executor.py): dangerous-pattern check, then
`validate_command`, then the child process.  A raised `ValueError` is
`Except.error`.  (Stripping the proxy environment variables and setting
the sandbox marker only shape the child's environment and are not
observable in the record.) -/
def run_shell_command (cmd : String) (timeoutSec : Int) (env : ProcEnv)
    (maxOutputChars : Nat := 40000) : Except String RunRecord :=
  let lowered := Security.pyLower cmd
  match DANGEROUS_RUN_PATTERNS.find? (fun p => Security.strContains lowered p) with
  | some p => .error ("blocked dangerous command pattern: " ++ p)
  | none =>
    let validation := Security.validate_command cmd
    if ¬validation.allowed then
      .error ("blocked by security policy: " ++ validation.reason)
    else
      match env cmd timeoutSec with
      | .timedOut =>
        .ok ⟨"timeout", cmd, timeoutSec, none, "", "command timed out"⟩
      | .exited code out err =>
        .ok ⟨if code = 0 then "completed" else "failed", cmd, timeoutSec,
             some code, truncate_text out maxOutputChars,
             truncate_text err maxOutputChars⟩

/-- The `output` map of an `ActionResult`, restricted to the shapes the
claims touch: empty (denied / handler raised before assignment) or the
`run` handler's `{"selector": ..., **result}` merge. -/
inductive ActionOutput where
  | empty
  | run (selector : String) (record : RunRecord)
deriving DecidableEq, Repr

/-- `ActionResult` (agent_contract.py). -/
structure ActionResult where
  actionId : String
  status : String
  output : ActionOutput
  error : Option String
  startedAt : String
  finishedAt : String
deriving DecidableEq, Repr

/-- The `request.type == "run"` arm of `_execute_action` (executor.py),
wrapped in its `try`/`except` which converts any raised exception into
a `"failed"` result.  `selector` and the parameter values are passed
explicitly (`selector = str(request.selector or
request.parameters.get("selector", "cmd"))`, an empty request selector
being falsy). -/
def execute_run_action (actionId : String) (requestSelector : Option String)
    (paramSelector : Option String) (cmdParam : String) (requestedTimeout : Int)
    (maxRuntimeSec : Int) (env : ProcEnv) (startedAt finishedAt : String) :
    ActionResult :=
  let selector :=
    match requestSelector with
    | some s => if s = "" then paramSelector.getD "cmd" else s
    | none => paramSelector.getD "cmd"
  if selector ∉ RUN_SELECTOR_ALLOWLIST then
    ⟨actionId, "failed", .empty, some ("unsupported run selector: " ++ selector),
     startedAt, finishedAt⟩
  else
    let cmd := Security.pyStrip cmdParam
    if cmd = "" then
      ⟨actionId, "failed", .empty, some "run action requires non-empty cmd",
       startedAt, finishedAt⟩
    else
      let timeoutSec := max 1 (min requestedTimeout maxRuntimeSec)
      match run_shell_command cmd timeoutSec env with
      | .error e => ⟨actionId, "failed", .empty, some e, startedAt, finishedAt⟩
      | .ok record =>
        let status := if record.status ≠ "completed" then "failed" else "completed"
        ⟨actionId, status, .run selector record, none, startedAt, finishedAt⟩

/-- The events `execute_session` appends to `events.jsonl` during
completion reconciliation. -/
inductive SessionEvent where
  | completionBlocked (requestedCompletedIds : List String)
  | subTaskCompleted (subTaskId : String)
deriving DecidableEq, Repr

/-- Apply `update_sub_task_status(feature_file, task_id, True)` for each
accepted id in turn, recording a `sub_task_completed` event after each;
a raised `KeyError` propagates (stops the loop). -/
def applyCompletions (file : Option Tracker.FeaturePayload) (events : List SessionEvent) :
    List String → Option Tracker.FeaturePayload × List SessionEvent × Except String Unit
  | [] => (file, events, .ok ())
  | taskId :: rest =>
    match Tracker.update_sub_task_status file taskId true with
    | (file, .ok _) =>
      applyCompletions file (events ++ [.subTaskCompleted taskId]) rest
    | (file, .error e) => (file, events, .error e)

/-- The completion-reconciliation tail of `execute_session`
(executor.py): discard all claimed completions when any action result
of the session is `denied` or `failed`, recording a
`completion_blocked` event instead; otherwise honour the claims by
updating the ledger. -/
def reconcileCompletions (actionResults : List ActionResult)
    (claimedIds : List String) (file : Option Tracker.FeaturePayload) :
    List String × Option Tracker.FeaturePayload × List SessionEvent × Except String Unit :=
  let blocked := actionResults.any (fun item => item.status = "denied" ∨ item.status = "failed")
  let completedIds := if blocked then [] else claimedIds
  let events :=
    if blocked ∧ claimedIds ≠ [] then [SessionEvent.completionBlocked claimedIds] else []
  let (file, events, outcome) := applyCompletions file events completedIds
  (completedIds, file, events, outcome)

end Executor

namespace Policy

/-- `AllowedAction` (agent_contract.py), the fields the policy engine
reads. -/
structure AllowedAction where
  type : String
  selectors : List String
deriving DecidableEq, Repr

/-- `TaskConstraints` (agent_contract.py). -/
structure TaskConstraints where
  noNetwork : Bool
  maxRuntimeSec : Int
  allowRepoEdits : Bool
  sandboxMode : String
deriving DecidableEq, Repr

/-- `ActionRequest` (agent_contract.py); the parameter map is modelled
as an association list of string-valued parameters. -/
structure ActionRequest where
  actionId : String
  type : String
  selector : Option String
  parameters : List (String × String)
  requestedBy : String
deriving DecidableEq, Repr

/-- The slice of `TaskEnvelope` the policy engine reads:
`allowed_actions` and `context.constraints`. -/
structure TaskEnvelope where
  allowedActions : List AllowedAction
  constraints : TaskConstraints
deriving DecidableEq, Repr

/-- `PolicyDecision` (agent_contract.py); `metadata` holds the sorted
`mutated_parameters` key list the runtime stage records. -/
structure PolicyDecision where
  allowed : Bool
  reason : String
  policyStage : String
  needsOrchestratorVerification : Bool
  runtimeApprovalRequired : Bool
  metadata : List String := []
deriving DecidableEq, Repr

/-- `HIGH_RISK_ACTIONS` (policy.py). -/
def HIGH_RISK_ACTIONS : List String := ["run", "cmd", "mcp_call", "github"]

/-- `NETWORK_TOKENS` (policy.py). -/
def NETWORK_TOKENS : List String :=
  ["http://", "https://", "curl ", "wget ", "pip install", "npm install"]

/-- `dict.get(key, default)` on the parameter association list. -/
def paramGet (parameters : List (String × String)) (key default : String) : String :=
  match parameters.find? (fun p => p.1 = key) with
  | some p => p.2
  | none => default

/-- `dict.update`: write each mutation key over the base map (replace
in place, or append a new key). -/
def paramSet (parameters : List (String × String)) (key value : String) :
    List (String × String) :=
  if (parameters.find? (fun p => p.1 = key)).isSome then
    parameters.map (fun p => if p.1 = key then (key, value) else p)
  else parameters ++ [(key, value)]

/-- `request.parameters.update(mutation)`. -/
def paramUpdate (parameters : List (String × String))
    (mutation : List (String × String)) : List (String × String) :=
  mutation.foldl (fun acc p => paramSet acc p.1 p.2) parameters

/-- `_allowed_action` (policy.py): first allowed-action entry with the
request type whose selector whitelist (when non-empty, and when the
request carries a truthy selector) contains the request selector. -/
def allowedAction (envelope : TaskEnvelope) (request : ActionRequest) :
    Bool × String :=
  match envelope.allowedActions.find? (fun action =>
      action.type == request.type &&
        !(!action.selectors.isEmpty &&
          (match request.selector with
           | some s => s != "" && !action.selectors.contains s
           | none => false))) with
  | some _ => (true, "action allowed by task envelope")
  | none => (false, "action type not allowed: " ++ request.type)

/-- `_network_violation` (policy.py). -/
def networkViolation (envelope : TaskEnvelope) (request : ActionRequest) :
    Option String :=
  if ¬envelope.constraints.noNetwork then none
  else
    let cmd := Security.pyLower (paramGet request.parameters "cmd" "")
    if NETWORK_TOKENS.any (fun token => Security.strContains cmd token) then
      some "network command blocked by no_network constraint"
    else none

/-- `_repo_edit_violation` (policy.py). -/
def repoEditViolation (envelope : TaskEnvelope) (request : ActionRequest) :
    Option String :=
  if (request.type = "write_file" ∨ request.type = "propose_patch") ∧
      ¬envelope.constraints.allowRepoEdits then
    some "repo edits blocked by allow_repo_edits=false"
  else none

/-- The three response shapes a runtime approver may return: a plain
boolean, an `(approved, reason)` pair, or a structured object that may
also carry parameter mutations. -/
inductive ApproverResponse where
  | plain (approved : Bool)
  | pair (approved : Bool) (reason : String)
  | structured (allowed : Bool) (reason : String)
      (mutatedParameters : List (String × String))
deriving DecidableEq, Repr

/-- An injected runtime approver (`RuntimeApprover`, policy.py). -/
def RuntimeApprover := ActionRequest → ApproverResponse

/-- `PolicyEngine.evaluate` (policy.py).  Returns the decision together
with the (possibly mutated) request, since the runtime stage merges
approver-supplied parameter mutations into the request in place. -/
def evaluate (runtimeApprover : Option RuntimeApprover)
    (envelope : TaskEnvelope) (request : ActionRequest) :
    PolicyDecision × ActionRequest :=
  let (allowed, reason) := allowedAction envelope request
  if ¬allowed then
    (⟨false, reason, "static", true, false, []⟩, request)
  else
    match repoEditViolation envelope request with
    | some violation => (⟨false, violation, "static", true, false, []⟩, request)
    | none =>
      match networkViolation envelope request with
      | some violation => (⟨false, violation, "static", true, false, []⟩, request)
      | none =>
        let runtimeRequired := request.type ∈ HIGH_RISK_ACTIONS
        match runtimeApprover with
        | none => (⟨true, "approved by static policy", "static", true, runtimeRequired, []⟩, request)
        | some approver =>
          if ¬runtimeRequired then
            (⟨true, "approved by static policy", "static", true, runtimeRequired, []⟩, request)
          else
            let (approved, runtimeReason, mutation) :=
              match approver request with
              | .plain b => (b, "runtime approver decision", [])
              | .pair b r => (b, r, [])
              | .structured b r m => (b, r, m)
            let request :=
              if mutation ≠ [] then
                { request with parameters := paramUpdate request.parameters mutation }
              else request
            let metadata :=
              if mutation ≠ [] then (mutation.map Prod.fst).mergeSort (· ≤ ·) else []
            (⟨approved, runtimeReason, "runtime", true, true, metadata⟩, request)

end Policy

namespace Providers

/-- A decoded JSON message pulled from the protocol queue, as the
dispatch loop inspects it: presence of the `method`, `id`, `result` and
`error` keys (`payload.get` semantics: an absent key and an explicit
JSON `null` both read back as `none`).  The id type is abstract — the
handler only echoes it. -/
structure ProtocolMsg (ι : Type) where
  method : Option String
  id : Option ι
  hasResult : Bool
  hasError : Bool
deriving Repr

/-- The `result` object of a synchronous reply sent by
`_handle_server_request`. -/
inductive ReplyResult where
  | decision (d : String)
  | answers (a : List (String × String))
  | toolCallOutcome (success : Bool) (contentText : String)
deriving DecidableEq, Repr

/-- A reply written back to the child process: `{id, result}` or
`{id, error: {code, message}}`. -/
inductive ReplyBody where
  | result (r : ReplyResult)
  | error (code : Int) (message : String)
deriving DecidableEq, Repr

/-- A sent reply message. -/
structure Reply (ι : Type) where
  id : ι
  body : ReplyBody
deriving Repr

/-- The fixed refusal text for ad-hoc tool calls. -/
def TOOL_CALL_REFUSAL : String := "dynamic tool calls are disabled by harness"

/-- `_CodexProtocolRuntime._handle_server_request` (providers.py): the
synchronous auto-answer for a server-initiated request.  `none` models
the early `return` when the payload carries no usable id. -/
def handle_server_request {ι : Type} (payload : ProtocolMsg ι) : Option (Reply ι) :=
  let method := payload.method.getD ""
  match payload.id with
  | none => none
  | some requestId =>
    if method = "item/commandExecution/requestApproval" ∨
        method = "item/fileChange/requestApproval" then
      some ⟨requestId, .result (.decision "accept")⟩
    else if method = "execCommandApproval" ∨ method = "applyPatchApproval" then
      some ⟨requestId, .result (.decision "approved")⟩
    else if method = "item/tool/requestUserInput" then
      some ⟨requestId, .result (.answers [])⟩
    else if method = "item/tool/call" then
      some ⟨requestId, .result (.toolCallOutcome false TOOL_CALL_REFUSAL)⟩
    else
      some ⟨requestId, .error (-32000) ("unsupported server request: " ++ method)⟩

/-- The dispatch-loop test selecting server-initiated requests:
`"method" in payload and "id" in payload and "result" not in payload
and "error" not in payload`. -/
def isServerRequest {ι : Type} (payload : ProtocolMsg ι) : Bool :=
  payload.method.isSome ∧ payload.id.isSome ∧ ¬payload.hasResult ∧ ¬payload.hasError

end Providers

namespace Rpi

/-- A file system as a map from (repo-relative) path strings to file
contents; `none` is an absent file.  Directories are implicit: `mkdir`
calls do not change any file and are not modelled. -/
def FS := String → Option String

/-- `Path.exists()` for a file. -/
def fsExists (fs : FS) (path : String) : Bool :=
  (fs path).isSome

/-- `write_text` / `write_json`: (over)write one file. -/
def fsWrite (fs : FS) (path content : String) : FS :=
  fun q => if q = path then some content else fs q

/-- `Path.unlink()` (guarded by `exists()` in the source, which is the
same map on files). -/
def fsRemove (fs : FS) (path : String) : FS :=
  fun q => if q = path then none else fs q

/-- `shutil.rmtree(dir)`: remove every file at or under `dir` (guarded
by `exists()` in the source, which is the same map on files). -/
def fsRemoveTree (fs : FS) (dir : String) : FS :=
  fun q => if q = dir ∨ Security.pyStartsWith q (dir ++ "/") then none else fs q

/-- `shutil.move(src, dst)` for a single file. -/
def fsMove (fs : FS) (src dst : String) : FS :=
  fun q => if q = dst then fs src else if q = src then none else fs q

/-- `paths.autoeval_dir` relative to the repository root (config.py). -/
def autoevalDir : String := ".autoeval"

/-- `paths.rpi_dir` (config.py): `.autoeval/instructions`. -/
def rpiDir : String := ".autoeval/instructions"

/-- `paths.state_file` (config.py). -/
def stateFile : String := ".autoeval/state.json"

/-- `paths.project_overrides_file` (config.py). -/
def projectOverridesFile : String := ".autoeval/mcp/overrides.json"

/-- The planning artifacts (`ARTIFACT_FILENAMES`, rpi.py). -/
def researchFile : String := ".autoeval/instructions/research.md"

def planFile : String := ".autoeval/instructions/plan.md"

def featureListFile : String := ".autoeval/instructions/feature_list.json"

/-- The two legacy locations `_legacy_instruction_dirs` returns. -/
def legacyInstructionsRpiDir : String := ".autoeval/instructions/rpi"

def legacyRpiDir : String := ".autoeval/rpi"

/-- The default content of `state.json` written by `ensure_repo_layout`
(its timestamps are irrelevant here and elided). -/
def initialStateText : String := "initial state.json payload"

/-- The default content of `overrides.json` written by
`ensure_repo_layout`. -/
def initialOverridesText : String := "initial overrides.json payload"

/-- `ensure_repo_layout` (config.py): create the directory skeleton
(no file effect) and seed `state.json` / `overrides.json` when
missing. -/
def ensure_repo_layout (fs : FS) : FS :=
  let fs := if fsExists fs stateFile then fs else fsWrite fs stateFile initialStateText
  if fsExists fs projectOverridesFile then fs
  else fsWrite fs projectOverridesFile initialOverridesText

/-- The per-file legacy migration step of `_cleanup_legacy_rpi_layout`:
move `.autoeval/rpi/<name>` to `.autoeval/instructions/<name>` when the
source exists and the destination does not.  (The source guards the
whole loop by `legacy_rpi_dir.exists()`, which only short-circuits:
with no files under the directory every per-file move is a no-op.) -/
def migrateLegacyFile (migrate : Bool) (fs : FS) (name : String) : FS :=
  let src := legacyRpiDir ++ "/" ++ name
  let dst := rpiDir ++ "/" ++ name
  if migrate ∧ fsExists fs src ∧ ¬fsExists fs dst then fsMove fs src dst else fs

/-- `_cleanup_legacy_rpi_layout` (rpi.py). -/
def cleanup_legacy_rpi_layout (fs : FS) (migrate : Bool) : FS :=
  let fs := ["research.md", "plan.md", "feature_list.json"].foldl (migrateLegacyFile migrate) fs
  let fs := fsRemoveTree fs legacyInstructionsRpiDir
  let fs := fsRemoveTree fs legacyRpiDir
  let fs := fsRemove fs (rpiDir ++ "/implementation.md")
  let fs := fsRemove fs (legacyRpiDir ++ "/implementation.md")
  fsRemove fs (legacyInstructionsRpiDir ++ "/rpi_implementation.md")

/-- `_render_pending_artifact` (rpi.py); the `generated_at` timestamp
line is elided. -/
def render_pending_artifact (artifactType : String) (task : String) : String :=
  "<!-- artifact_type: " ++ artifactType ++ " -->\n" ++
  "<!-- artifact_state: awaiting_provider_bootstrap -->\n\n" ++
  "This artifact is waiting for provider bootstrap generation.\n" ++
  "Requested task: " ++ task ++ "\n"

/-- The serialized `_default_feature_list()` payload written to
`feature_list.json` on creation (its content is opaque to the claims
settled here). -/
def defaultFeatureListText : String := "default feature_list.json payload"

/-- The `{"created": [...], "skipped": [...]}` outputs dictionary of
`init_rpi_artifacts`. -/
structure InitOutputs where
  created : List String
  skipped : List String
deriving DecidableEq, Repr

/-- `init_rpi_artifacts` (rpi.py): layout bootstrap, legacy cleanup
(`migrate=not force`), then create-or-skip each of the three planning
artifacts. -/
def init_rpi_artifacts (fs : FS) (task : String) (force : Bool) :
    FS × InitOutputs :=
  let fs := ensure_repo_layout fs
  let fs := cleanup_legacy_rpi_layout fs (!force)
  let outputs : InitOutputs := ⟨[], []⟩
  let (fs, outputs) :=
    if force ∨ ¬fsExists fs researchFile then
      (fsWrite fs researchFile (render_pending_artifact "research" task),
       { outputs with created := outputs.created ++ [researchFile] })
    else (fs, { outputs with skipped := outputs.skipped ++ [researchFile] })
  let (fs, outputs) :=
    if force ∨ ¬fsExists fs planFile then
      (fsWrite fs planFile (render_pending_artifact "plan" task),
       { outputs with created := outputs.created ++ [planFile] })
    else (fs, { outputs with skipped := outputs.skipped ++ [planFile] })
  if force ∨ ¬fsExists fs featureListFile then
    (fsWrite fs featureListFile defaultFeatureListText,
     { outputs with created := outputs.created ++ [featureListFile] })
  else (fs, { outputs with skipped := outputs.skipped ++ [featureListFile] })

end Rpi

namespace Orchestrator

/-- The `eval_report` dictionary returned by the evaluation-suite
collaborator (`run_eval_suite`), as `_write_metrics` and `run_task`
read it. -/
structure EvalReport where
  passed : Bool
  profile : String
deriving DecidableEq, Repr

/-- The `eval` block `_write_metrics` adds to `metrics.json` when an
evaluation report exists. -/
structure EvalMetrics where
  passed : Bool
  profile : String
deriving DecidableEq, Repr

/-- The `metrics.json` payload written by `_write_metrics`
(orchestrator.py); the usage block and timestamps are not relevant to
the claims and elided. -/
structure RunMetrics where
  schemaVersion : Nat
  runId : String
  sessions : Nat
  phasesDone : Nat
  phasesTotal : Nat
  stuckCount : Nat
  completed : Bool
  evalBlock : Option EvalMetrics
deriving DecidableEq, Repr

/-- `_write_metrics` (orchestrator.py): recompute the ledger counts,
derive `completed = (done_count == total_count and total_count > 0)`,
then apply the completion override when one is given. -/
def write_metrics (file : Option Tracker.FeaturePayload) (runId : String)
    (sessions stuckCount : Nat) (completedOverride : Option Bool)
    (evalReport : Option EvalReport) : RunMetrics :=
  let (doneCount, totalCount) := Tracker.completion_counts file
  let completed := doneCount == totalCount && totalCount > 0
  let completed :=
    match completedOverride with
    | some override => override
    | none => completed
  { schemaVersion := SCHEMA_VERSION
    runId := runId
    sessions := sessions
    phasesDone := doneCount
    phasesTotal := totalCount
    stuckCount := stuckCount
    completed := completed
    evalBlock := evalReport.map (fun r => ⟨r.passed, r.profile⟩) }

/-- The completion/eval-gate tail of `run_task` (orchestrator.py): when
the ledger looks complete, run the evaluation suite; when the gate is
required and fails, force the completion flag to `false`; always write
metrics (never raise). -/
def run_task_finalize (file : Option Tracker.FeaturePayload) (runId : String)
    (sessions stuckCount : Nat) (evalOutcome : EvalReport)
    (requireEvalPass : Bool) : RunMetrics :=
  let completionCandidate := Tracker.all_completed file
  let evalReport : Option EvalReport :=
    if completionCandidate then some evalOutcome else none
  let completedOverride : Option Bool :=
    if completionCandidate ∧ requireEvalPass ∧ ¬evalOutcome.passed then some false
    else none
  write_metrics file runId sessions stuckCount completedOverride evalReport

/-- What one `execute_session` call leaves behind, as the run loop
reads it: the ledger counts after the session (`result.done_count`,
`result.total_count`; `result.complete = total_count > 0 and done_count
== total_count`).  The rollover branch only records an informational
event and does not feed back into the loop state. -/
structure SessionOutcome where
  doneCount : Nat
  totalCount : Nat
deriving DecidableEq, Repr

/-- How the session loop of `run_task` stopped. -/
inductive LoopHalt where
  | ledgerDone
  | stuck
  | complete
  | maxSessionsReached
  | sessionSupplyExhausted
deriving DecidableEq, Repr

/-- The observable loop state when `run_task` leaves its `while`. -/
structure LoopResult where
  sessions : Nat
  stuckCount : Nat
  halt : LoopHalt
deriving DecidableEq, Repr

/-- The session loop of `run_task` (orchestrator.py).  `outcomes`
supplies the result of each successive `execute_session` call
(`sessionSupplyExhausted` marks runs needing more sessions than
supplied and is never reached in the claims below).  `done`/`total`
are the current ledger counts, from which `all_completed(feature_file)`
and `before_done` are read. -/
def runLoop (outcomes : List SessionOutcome) (done total : Nat)
    (noProgress stuckCount sessions maxSessions : Nat) : LoopResult :=
  if done = total ∧ 0 < total then ⟨sessions, stuckCount, .ledgerDone⟩
  else
    match outcomes with
    | [] => ⟨sessions, stuckCount, .sessionSupplyExhausted⟩
    | outcome :: rest =>
      let sessions := sessions + 1
      let beforeDone := done
      let afterDone := outcome.doneCount
      let noProgress := if afterDone = beforeDone then noProgress + 1 else 0
      if noProgress ≥ 3 then ⟨sessions, stuckCount + 1, .stuck⟩
      else if outcome.totalCount > 0 ∧ outcome.doneCount = outcome.totalCount then
        ⟨sessions, stuckCount, .complete⟩
      else if sessions ≥ maxSessions then ⟨sessions, stuckCount, .maxSessionsReached⟩
      else runLoop rest outcome.doneCount outcome.totalCount noProgress stuckCount
        sessions maxSessions

end Orchestrator

/-! ## Theorems -/

theorem setStatusFirst_eq_none (taskId : String) (status : Bool)
    (tasks : List Tracker.SubTask) (h : ∀ t ∈ tasks, t.id ≠ taskId) :
    Tracker.setStatusFirst taskId status tasks = none := by
  induction tasks with
  | nil => rfl
  | cons task rest ih =>
    have hne : task.id ≠ taskId := h task (List.mem_cons_self task rest)
    simp only [Tracker.setStatusFirst, if_neg hne]
    rw [ih (fun t ht => h t (List.mem_cons_of_mem task ht))]
    rfl

/-- C10: `update_sub_task_status` with a task id matching no sub-task
raises `KeyError` and leaves the feature file on disk unchanged — the
save happens only after a matching sub-task is found. -/
theorem update_sub_task_status_unknown_id_keeps_file
    (file : Option Tracker.FeaturePayload) (taskId : String) (status : Bool)
    (h : ∀ t ∈ (Tracker.load_feature_list file).subTasks, t.id ≠ taskId) :
    (Tracker.update_sub_task_status file taskId status).1 = file ∧
      (Tracker.update_sub_task_status file taskId status).2 =
        .error ("unknown sub task: " ++ taskId) := by
  have hnone := setStatusFirst_eq_none taskId status
    (Tracker.load_feature_list file).subTasks h
  simp [Tracker.update_sub_task_status, hnone]

/-- Witness for C10 at a concrete ledger and unknown id. -/
theorem update_sub_task_status_unknown_id_keeps_file_witness :
    (Tracker.update_sub_task_status
        (some ⟨1, [⟨"research_baseline", "phase_0", "Research", "baseline", [], false⟩]⟩)
        "no_such_task" true).1 =
      some ⟨1, [⟨"research_baseline", "phase_0", "Research", "baseline", [], false⟩]⟩ :=
  (update_sub_task_status_unknown_id_keeps_file
    (some ⟨1, [⟨"research_baseline", "phase_0", "Research", "baseline", [], false⟩]⟩)
    "no_such_task" true (by decide)).1

/-- C2: a session with any `failed` or `denied` action result accepts
no claimed completions, leaves the sub-task ledger untouched, and — when
the agent claimed any completion — records a `completion_blocked`
event. -/
theorem blocked_session_discards_claims (actionResults : List Executor.ActionResult)
    (claimedIds : List String) (file : Option Tracker.FeaturePayload)
    (h : ∃ r ∈ actionResults, r.status = "failed" ∨ r.status = "denied") :
    (Executor.reconcileCompletions actionResults claimedIds file).1 = [] ∧
      (Executor.reconcileCompletions actionResults claimedIds file).2.1 = file ∧
      (Executor.reconcileCompletions actionResults claimedIds file).2.2.2 = .ok () ∧
      (claimedIds ≠ [] →
        Executor.SessionEvent.completionBlocked claimedIds ∈
          (Executor.reconcileCompletions actionResults claimedIds file).2.2.1) := by
  have hblocked :
      actionResults.any (fun item => item.status = "denied" ∨ item.status = "failed") = true := by
    obtain ⟨r, hr, hstatus⟩ := h
    simp only [List.any_eq_true, decide_eq_true_eq]
    exact ⟨r, hr, hstatus.symm⟩
  unfold Executor.reconcileCompletions
  rw [hblocked]
  by_cases hc : claimedIds = []
  · simp [hc, Executor.applyCompletions]
  · simp [hc, Executor.applyCompletions]

/-- Witness for C2 at a concrete blocked session. -/
theorem blocked_session_discards_claims_witness :
    (Executor.reconcileCompletions
        [⟨"a1", "denied", .empty, some "nope", "t0", "t0"⟩]
        ["research_baseline"]
        (some ⟨1, [⟨"research_baseline", "phase_0", "Research", "baseline", [], false⟩]⟩)).1 =
      [] :=
  (blocked_session_discards_claims
    [⟨"a1", "denied", .empty, some "nope", "t0", "t0"⟩]
    ["research_baseline"]
    (some ⟨1, [⟨"research_baseline", "phase_0", "Research", "baseline", [], false⟩]⟩)
    ⟨_, List.mem_singleton_self _, Or.inr rfl⟩).1

theorem all_completed_iff_counts (file : Option Tracker.FeaturePayload) :
    Tracker.all_completed file = true ↔
      ((Tracker.completion_counts file).1 = (Tracker.completion_counts file).2 ∧
        0 < (Tracker.completion_counts file).2) := by
  unfold Tracker.all_completed Tracker.completion_counts
  rcases htasks : (Tracker.load_feature_list file).subTasks with _ | ⟨t, ts⟩
  · simp
  · simp only [htasks]
    simp only [List.isEmpty_cons, Bool.not_false, Bool.true_and, List.all_eq_true,
      decide_eq_true_eq, List.length_cons, Nat.zero_lt_succ, and_true, List.mem_cons]
    constructor
    · intro hall
      have ht : t.status = true := hall.2 t (Or.inl rfl)
      have hts : List.countP (fun x => x.status) ts = ts.length :=
        List.countP_eq_length.mpr (by intro a ha; simpa using hall.2 a (Or.inr ha))
      simp [List.countP_cons, ht, hts]
    · intro hlen
      have hle : List.countP (fun x => x.status) ts ≤ ts.length :=
        List.countP_le_length _
      rw [List.countP_cons] at hlen
      by_cases ht : t.status = true
      · have hts : List.countP (fun x => x.status) ts = ts.length := by
          rw [if_pos ht] at hlen
          omega
        refine ⟨by simp, ?_⟩
        intro a ha
        rcases ha with rfl | ha
        · exact ht
        · simpa using (List.countP_eq_length.mp hts) a ha
      · exfalso
        rw [if_neg ht] at hlen
        omega

/-- C3: the run metrics' `completed` flag is true exactly when the
ledger is fully done (`done_count == total_count > 0`) and a required
evaluation gate did not fail; a failing required gate is recorded as a
structured `eval` block in the metrics (the finalizer is a total
function — nothing is raised). -/
theorem run_completed_flag_requires_ledger_and_eval
    (file : Option Tracker.FeaturePayload) (runId : String)
    (sessions stuckCount : Nat) (evalOutcome : Orchestrator.EvalReport)
    (requireEvalPass : Bool) :
    ((Orchestrator.run_task_finalize file runId sessions stuckCount evalOutcome
        requireEvalPass).completed = true ↔
      ((Tracker.completion_counts file).1 = (Tracker.completion_counts file).2 ∧
        0 < (Tracker.completion_counts file).2 ∧
        (requireEvalPass = true → evalOutcome.passed = true))) ∧
      (Orchestrator.run_task_finalize file runId sessions stuckCount evalOutcome
          requireEvalPass).evalBlock =
        (if Tracker.all_completed file then
          some ⟨evalOutcome.passed, evalOutcome.profile⟩
         else none) := by
  unfold Orchestrator.run_task_finalize Orchestrator.write_metrics
  by_cases hc : Tracker.all_completed file = true
  · have hcounts := (all_completed_iff_counts file).mp hc
    by_cases hr : requireEvalPass = true
    · by_cases hp : evalOutcome.passed = true
      · simp [hc, hr, hp, hcounts.1, hcounts.2]
      · simp [hc, hr, hp, hcounts.1, hcounts.2]
    · simp [hc, hr, hcounts.1, hcounts.2]
  · have hcounts := (all_completed_iff_counts file).not.mp hc
    push_neg at hcounts
    simp only [Bool.not_eq_true] at hc
    by_cases heq : (Tracker.completion_counts file).1 = (Tracker.completion_counts file).2
    · have hz0 : (Tracker.completion_counts file).2 = 0 := Nat.le_zero.mp (hcounts heq)
      simp [hc, heq, hz0]
    · simp [hc, heq]

/-- One non-terminal iteration of the session loop: the session ran,
progress bookkeeping updated, and none of the three stop conditions
fired. -/
theorem runLoop_progress_step (outcome : Orchestrator.SessionOutcome)
    (rest : List Orchestrator.SessionOutcome)
    (done total noProgress stuckCount sessions maxSessions : Nat)
    (hnc : ¬(done = total ∧ 0 < total))
    (hnp : ¬((if outcome.doneCount = done then noProgress + 1 else 0) ≥ 3))
    (hcomp : ¬(outcome.totalCount > 0 ∧ outcome.doneCount = outcome.totalCount))
    (hmax : ¬(sessions + 1 ≥ maxSessions)) :
    Orchestrator.runLoop (outcome :: rest) done total noProgress stuckCount
        sessions maxSessions =
      Orchestrator.runLoop rest outcome.doneCount outcome.totalCount
        (if outcome.doneCount = done then noProgress + 1 else 0) stuckCount
        (sessions + 1) maxSessions := by
  rw [Orchestrator.runLoop]
  simp only [if_neg hnc, if_neg hnp, if_neg hcomp, if_neg hmax]

/-- The loop iteration in which the no-progress counter reaches 3: the
loop stops as `Stuck`, bumping the stuck counter. -/
theorem runLoop_stuck_step (outcome : Orchestrator.SessionOutcome)
    (rest : List Orchestrator.SessionOutcome)
    (done total noProgress stuckCount sessions maxSessions : Nat)
    (hnc : ¬(done = total ∧ 0 < total))
    (hnp : (if outcome.doneCount = done then noProgress + 1 else 0) ≥ 3) :
    Orchestrator.runLoop (outcome :: rest) done total noProgress stuckCount
        sessions maxSessions =
      ⟨sessions + 1, stuckCount + 1, .stuck⟩ := by
  rw [Orchestrator.runLoop]
  simp only [if_neg hnc, if_pos hnp]

/-- C4: sessions that leave `done_count` unchanged accumulate the
no-progress counter, a session that changes it resets the counter, and
the third consecutive no-progress session halts the loop as `Stuck`
with a stuck count of 1, before the max-session cutoff.  Part one:
three unchanged sessions from a fresh counter stop at exactly session
3, whatever sessions would have followed.  Part two: starting with the
counter already at 2, a session that changes `done_count` resets it, so
three further unchanged sessions are needed (stop at session 4). -/
theorem run_loop_stuck_after_three_no_progress
    (done total dNew tNew maxSessions : Nat)
    (rest : List Orchestrator.SessionOutcome) :
    (¬(done = total ∧ 0 < total) → 3 < maxSessions →
      Orchestrator.runLoop
          (⟨done, total⟩ :: ⟨done, total⟩ :: ⟨done, total⟩ :: rest)
          done total 0 0 0 maxSessions = ⟨3, 1, .stuck⟩) ∧
    (¬(done = total ∧ 0 < total) → dNew ≠ done → ¬(dNew = tNew ∧ 0 < tNew) →
      4 < maxSessions →
      Orchestrator.runLoop
          (⟨dNew, tNew⟩ :: ⟨dNew, tNew⟩ :: ⟨dNew, tNew⟩ :: ⟨dNew, tNew⟩ :: rest)
          done total 2 0 0 maxSessions = ⟨4, 1, .stuck⟩) := by
  constructor
  · intro hnc hmax
    have hcomp : ¬(total > 0 ∧ done = total) := fun h => hnc ⟨h.2, h.1⟩
    rw [runLoop_progress_step, runLoop_progress_step, runLoop_stuck_step] <;>
      simp_all <;> omega
  · intro hnc hne hnc2 hmax
    have hcomp : ¬(tNew > 0 ∧ dNew = tNew) := fun h => hnc2 ⟨h.2, h.1⟩
    rw [runLoop_progress_step, runLoop_progress_step, runLoop_progress_step,
      runLoop_stuck_step] <;> simp_all <;> omega

/-- Witness for C4 (Scenario B): stuck at 2 of 5 sub-tasks under a cap
of 30 sessions, and the reset variant with a first session moving the
count from 2 to 3. -/
theorem run_loop_stuck_after_three_no_progress_witness :
    Orchestrator.runLoop [⟨2, 5⟩, ⟨2, 5⟩, ⟨2, 5⟩] 2 5 0 0 0 30 = ⟨3, 1, .stuck⟩ ∧
      Orchestrator.runLoop [⟨3, 5⟩, ⟨3, 5⟩, ⟨3, 5⟩, ⟨3, 5⟩] 2 5 2 0 0 30 =
        ⟨4, 1, .stuck⟩ :=
  ⟨(run_loop_stuck_after_three_no_progress 2 5 3 5 30 []).1 (by omega) (by omega),
   (run_loop_stuck_after_three_no_progress 2 5 3 5 30 []).2 (by omega) (by omega)
     (by omega) (by omega)⟩

/-- C7: every policy decision `PolicyEngine.evaluate` returns — on
every path, allowed or denied, static or runtime stage — carries
`needs_orchestrator_verification = True`. -/
theorem evaluate_always_needs_orchestrator_verification
    (runtimeApprover : Option Policy.RuntimeApprover)
    (envelope : Policy.TaskEnvelope) (request : Policy.ActionRequest) :
    (Policy.evaluate runtimeApprover envelope request).1.needsOrchestratorVerification =
      true := by
  unfold Policy.evaluate
  rcases Policy.allowedAction envelope request with ⟨allowed, reason⟩
  by_cases ha : allowed = true
  · simp only [ha]
    rcases Policy.repoEditViolation envelope request with _ | v
    · rcases Policy.networkViolation envelope request with _ | v2
      · rcases runtimeApprover with _ | approver
        · rfl
        · by_cases hr : request.type ∈ Policy.HIGH_RISK_ACTIONS
          · simp only [hr]
            rcases approver request with b | ⟨b, r⟩ | ⟨b, r, m⟩ <;> simp
          · simp [hr]
      · rfl
    · rfl
  · simp [ha]

/-- C8: the dispatch loop answers every server-initiated request (a
message with both `method` and `id` but neither `result` nor `error`)
synchronously with a reply carrying the same id: approval requests
always receive an accepting decision, user-input requests an empty
answer set, and ad-hoc tool-call requests the fixed refusal payload
(`success = false`) — a tool call is never forwarded for execution. -/
theorem server_requests_always_answered {ι : Type}
    (payload : Providers.ProtocolMsg ι)
    (h : Providers.isServerRequest payload = true) :
    ∃ reply : Providers.Reply ι,
      Providers.handle_server_request payload = some reply ∧
      payload.id = some reply.id ∧
      ((payload.method = some "item/commandExecution/requestApproval" ∨
        payload.method = some "item/fileChange/requestApproval" ∨
        payload.method = some "execCommandApproval" ∨
        payload.method = some "applyPatchApproval") →
        ∃ d, reply.body = .result (.decision d) ∧
          (d = "accept" ∨ d = "approved")) ∧
      (payload.method = some "item/tool/requestUserInput" →
        reply.body = .result (.answers [])) ∧
      (payload.method = some "item/tool/call" →
        reply.body = .result (.toolCallOutcome false Providers.TOOL_CALL_REFUSAL)) := by
  simp only [Providers.isServerRequest, Bool.and_eq_true, decide_eq_true_eq] at h
  obtain ⟨hm, hid, _, _⟩ := h
  obtain ⟨m, hm⟩ := Option.isSome_iff_exists.mp (by simpa using hm)
  obtain ⟨rid, hrid⟩ := Option.isSome_iff_exists.mp (by simpa using hid)
  unfold Providers.handle_server_request
  rw [hm, hrid]
  simp only [Option.getD_some]
  by_cases h1 : m = "item/commandExecution/requestApproval" ∨
      m = "item/fileChange/requestApproval"
  · rcases h1 with rfl | rfl <;>
      exact ⟨⟨rid, .result (.decision "accept")⟩, rfl, rfl,
        fun _ => ⟨"accept", rfl, Or.inl rfl⟩,
        fun hx => absurd (Option.some.inj hx) (by decide),
        fun hx => absurd (Option.some.inj hx) (by decide)⟩
  · by_cases h2 : m = "execCommandApproval" ∨ m = "applyPatchApproval"
    · rcases h2 with rfl | rfl <;>
        exact ⟨⟨rid, .result (.decision "approved")⟩, by simp [h1], rfl,
          fun _ => ⟨"approved", rfl, Or.inr rfl⟩,
          fun hx => absurd (Option.some.inj hx) (by decide),
          fun hx => absurd (Option.some.inj hx) (by decide)⟩
    · by_cases h3 : m = "item/tool/requestUserInput"
      · subst h3
        exact ⟨⟨rid, .result (.answers [])⟩, by simp [h1, h2], rfl,
          fun hap => absurd hap (by
            rintro (hx | hx | hx | hx) <;>
              exact absurd (Option.some.inj hx) (by decide)),
          fun _ => rfl,
          fun hx => absurd (Option.some.inj hx) (by decide)⟩
      · by_cases h4 : m = "item/tool/call"
        · subst h4
          exact ⟨⟨rid, .result (.toolCallOutcome false Providers.TOOL_CALL_REFUSAL)⟩,
            by simp [h1, h2, h3], rfl,
            fun hap => absurd hap (by
              rintro (hx | hx | hx | hx) <;>
                exact absurd (Option.some.inj hx) (by decide)),
            fun hx => absurd (Option.some.inj hx) (by decide),
            fun _ => rfl⟩
        · refine ⟨⟨rid, .error (-32000) ("unsupported server request: " ++ m)⟩,
            by simp [h1, h2, h3, h4], rfl, ?_, ?_, ?_⟩
          · intro hap
            exfalso
            rcases hap with hx | hx | hx | hx
            · exact h1 (Or.inl (Option.some.inj hx))
            · exact h1 (Or.inr (Option.some.inj hx))
            · exact h2 (Or.inl (Option.some.inj hx))
            · exact h2 (Or.inr (Option.some.inj hx))
          · exact fun hx => absurd (Option.some.inj hx) h3
          · exact fun hx => absurd (Option.some.inj hx) h4

/-- Witness for C8: a concrete ad-hoc tool-call request receives the
fixed refusal. -/
theorem server_requests_always_answered_witness :
    ∃ reply : Providers.Reply Nat,
      Providers.handle_server_request
          (⟨some "item/tool/call", some 7, false, false⟩ : Providers.ProtocolMsg Nat) =
        some reply ∧
      reply.body = .result (.toolCallOutcome false Providers.TOOL_CALL_REFUSAL) := by
  obtain ⟨reply, hsome, _, _, _, htool⟩ :=
    server_requests_always_answered
      (⟨some "item/tool/call", some 7, false, false⟩ : Providers.ProtocolMsg Nat)
      (by decide)
  exact ⟨reply, hsome, htool rfl⟩

/-- Counterexample to C1 as stated: for the `run` action with command
`rm -rf /` the executor returns an Action Result whose status field is
`"failed"`, not `"denied"`. -/
theorem rm_rf_root_result_is_failed_not_denied :
    (Executor.execute_run_action "run-1" (some "cmd") none "rm -rf /" 900 900
        (fun _ _ => .exited 0 "" "") "t0" "t1").status = "failed" ∧
      (Executor.execute_run_action "run-1" (some "cmd") none "rm -rf /" 900 900
          (fun _ _ => .exited 0 "" "") "t0" "t1").status ≠ "denied" := by
  constructor <;> decide

/-- C1 (amended): for a `run` action with command `rm -rf /`, the
security check inside the shell handler rejects the command before the
child process would run — the result is the same whatever the ambient
system would have done, so the command is never executed — and the
Security Validator also judges the command invalid; but the Action
Result produced by the executor has status `"failed"` (with the
blocked-pattern text as its error), not `"denied"`. -/
theorem rm_rf_root_never_executes (actionId startedAt finishedAt : String)
    (requestedTimeout maxRuntimeSec : Int) (env : Executor.ProcEnv) :
    Executor.execute_run_action actionId (some "cmd") none "rm -rf /"
        requestedTimeout maxRuntimeSec env startedAt finishedAt =
      ⟨actionId, "failed", .empty,
        some "blocked dangerous command pattern: rm -rf /",
        startedAt, finishedAt⟩ ∧
      (Security.validate_command "rm -rf /").allowed = false := by
  exact ⟨rfl, by decide⟩

/-- Counterexample to C5 as stated: a `run` action (command `ls`) whose
child process hits the wall-clock timeout yields an Action Result whose
status field is `"failed"` — `"timeout"` appears only in the status of
the shell-command record embedded in the output map. -/
theorem run_timeout_result_is_failed_not_timeout :
    (Executor.execute_run_action "run-1" (some "cmd") none "ls" 30 900
        (fun _ _ => .timedOut) "t0" "t1").status ≠ "timeout" ∧
      (Executor.execute_run_action "run-1" (some "cmd") none "ls" 30 900
          (fun _ _ => .timedOut) "t0" "t1") =
        ⟨"run-1", "failed", .run "cmd" ⟨"timeout", "ls", 30, none, "", "command timed out"⟩,
          none, "t0", "t1"⟩ := by
  constructor <;> decide

/-- C5 (amended): for a `run` action that passes the selector,
non-empty-command and security checks, a child-process timeout yields
an Action Result with status `"failed"` whose output embeds the shell
record with status `"timeout"` (carrying the partial-output
placeholder), a non-zero exit yields status `"failed"` and a zero exit
`"completed"`; the Action Result status here is always `"completed"`
or `"failed"` (the `"denied"` status is attached by the session loop
for policy denials, and `"timeout"` is never an Action Result
status). -/
theorem run_action_status_classification (actionId startedAt finishedAt : String)
    (sel cmdParam : String) (requestedTimeout maxRuntimeSec : Int)
    (env : Executor.ProcEnv)
    (hsel : sel ∈ Executor.RUN_SELECTOR_ALLOWLIST) (hsel0 : sel ≠ "")
    (hcmd : Security.pyStrip cmdParam ≠ "")
    (hdanger : Executor.DANGEROUS_RUN_PATTERNS.find?
        (fun p => Security.strContains (Security.pyLower (Security.pyStrip cmdParam)) p) =
      none)
    (hvalid : (Security.validate_command (Security.pyStrip cmdParam)).allowed = true) :
    (env (Security.pyStrip cmdParam) (max 1 (min requestedTimeout maxRuntimeSec)) =
          .timedOut →
        Executor.execute_run_action actionId (some sel) none cmdParam
            requestedTimeout maxRuntimeSec env startedAt finishedAt =
          ⟨actionId, "failed",
            .run sel ⟨"timeout", Security.pyStrip cmdParam,
              max 1 (min requestedTimeout maxRuntimeSec), none, "", "command timed out"⟩,
            none, startedAt, finishedAt⟩) ∧
      (∀ code out err,
        env (Security.pyStrip cmdParam) (max 1 (min requestedTimeout maxRuntimeSec)) =
            .exited code out err →
          (Executor.execute_run_action actionId (some sel) none cmdParam
              requestedTimeout maxRuntimeSec env startedAt finishedAt).status =
            (if code = 0 then "completed" else "failed")) ∧
      ((Executor.execute_run_action actionId (some sel) none cmdParam
          requestedTimeout maxRuntimeSec env startedAt finishedAt).status = "completed" ∨
        (Executor.execute_run_action actionId (some sel) none cmdParam
            requestedTimeout maxRuntimeSec env startedAt finishedAt).status = "failed") := by
  unfold Executor.execute_run_action
  simp only [if_neg hsel0]
  rw [if_neg (not_not_intro hsel), if_neg hcmd]
  simp only [Executor.run_shell_command]
  rw [hdanger]
  simp only [hvalid, Bool.not_true, Bool.false_eq_true, if_neg, ite_false]
  refine ⟨?_, ?_, ?_⟩
  · intro htimeout
    rw [htimeout]
    rfl
  · intro code out err hexit
    rw [hexit]
    by_cases hz : code = 0 <;> simp [hz]
  · rcases henv : env (Security.pyStrip cmdParam)
        (max 1 (min requestedTimeout maxRuntimeSec)) with _ | ⟨code, out, err⟩
    · right
      rfl
    · by_cases hz : code = 0
      · left
        simp [hz]
      · right
        simp [hz]

/-- Witness for C5 (amended) at command `ls` with a timing-out child. -/
theorem run_action_status_classification_witness :
    (Executor.execute_run_action "run-1" (some "cmd") none "ls" 30 900
        (fun _ _ => .timedOut) "t0" "t1") =
      ⟨"run-1", "failed", .run "cmd" ⟨"timeout", "ls", 30, none, "", "command timed out"⟩,
        none, "t0", "t1"⟩ :=
  (run_action_status_classification "run-1" "t0" "t1" "cmd" "ls" 30 900
    (fun _ _ => .timedOut) (by decide) (by decide) (by decide) (by decide)
    (by decide)).1 rfl

theorem ensure_repo_layout_preserves (fs : Rpi.FS) (q : String)
    (h1 : q ≠ Rpi.stateFile) (h2 : q ≠ Rpi.projectOverridesFile) :
    Rpi.ensure_repo_layout fs q = fs q := by
  simp only [Rpi.ensure_repo_layout]
  split <;> split <;> simp [Rpi.fsWrite, h1, h2]

theorem migrateLegacyFile_skips_when_destination_exists (fs : Rpi.FS)
    (migrate : Bool) (name : String)
    (hex : Rpi.fsExists fs (Rpi.rpiDir ++ "/" ++ name) = true) :
    Rpi.migrateLegacyFile migrate fs name = fs := by
  simp only [Rpi.migrateLegacyFile]
  rw [if_neg (fun hcond => hcond.2.2 hex)]

/-- C9: re-running `init_rpi_artifacts` without `force` on a state where
`research.md`, `plan.md` and `feature_list.json` all exist leaves the
content of each of the three files unchanged and reports all three in
the `skipped` list with an empty `created` list. -/
theorem init_rpi_artifacts_idempotent (fs : Rpi.FS) (task : String)
    (r p f : String)
    (hr : fs Rpi.researchFile = some r) (hp : fs Rpi.planFile = some p)
    (hf : fs Rpi.featureListFile = some f) :
    (Rpi.init_rpi_artifacts fs task false).1 Rpi.researchFile = some r ∧
      (Rpi.init_rpi_artifacts fs task false).1 Rpi.planFile = some p ∧
      (Rpi.init_rpi_artifacts fs task false).1 Rpi.featureListFile = some f ∧
      (Rpi.init_rpi_artifacts fs task false).2.created = [] ∧
      (Rpi.init_rpi_artifacts fs task false).2.skipped =
        [Rpi.researchFile, Rpi.planFile, Rpi.featureListFile] := by
  have er : Rpi.ensure_repo_layout fs Rpi.researchFile = some r := by
    rw [ensure_repo_layout_preserves fs _ (by decide) (by decide), hr]
  have ep : Rpi.ensure_repo_layout fs Rpi.planFile = some p := by
    rw [ensure_repo_layout_preserves fs _ (by decide) (by decide), hp]
  have ef : Rpi.ensure_repo_layout fs Rpi.featureListFile = some f := by
    rw [ensure_repo_layout_preserves fs _ (by decide) (by decide), hf]
  have m1 : Rpi.migrateLegacyFile true (Rpi.ensure_repo_layout fs) "research.md" =
      Rpi.ensure_repo_layout fs :=
    migrateLegacyFile_skips_when_destination_exists _ true "research.md"
      (by show ((Rpi.ensure_repo_layout fs) Rpi.researchFile).isSome = true
          rw [er]
          rfl)
  have m2 : Rpi.migrateLegacyFile true (Rpi.ensure_repo_layout fs) "plan.md" =
      Rpi.ensure_repo_layout fs :=
    migrateLegacyFile_skips_when_destination_exists _ true "plan.md"
      (by show ((Rpi.ensure_repo_layout fs) Rpi.planFile).isSome = true
          rw [ep]
          rfl)
  have m3 : Rpi.migrateLegacyFile true (Rpi.ensure_repo_layout fs) "feature_list.json" =
      Rpi.ensure_repo_layout fs :=
    migrateLegacyFile_skips_when_destination_exists _ true "feature_list.json"
      (by show ((Rpi.ensure_repo_layout fs) Rpi.featureListFile).isSome = true
          rw [ef]
          rfl)
  have hcleanR :
      Rpi.cleanup_legacy_rpi_layout (Rpi.ensure_repo_layout fs) true Rpi.researchFile =
        some r := by
    simp only [Rpi.cleanup_legacy_rpi_layout, List.foldl, m1, m2, m3, Rpi.fsRemove,
      Rpi.fsRemoveTree]
    rw [if_neg (by decide), if_neg (by decide), if_neg (by decide), if_neg (by decide),
      if_neg (by decide)]
    exact er
  have hcleanP :
      Rpi.cleanup_legacy_rpi_layout (Rpi.ensure_repo_layout fs) true Rpi.planFile =
        some p := by
    simp only [Rpi.cleanup_legacy_rpi_layout, List.foldl, m1, m2, m3, Rpi.fsRemove,
      Rpi.fsRemoveTree]
    rw [if_neg (by decide), if_neg (by decide), if_neg (by decide), if_neg (by decide),
      if_neg (by decide)]
    exact ep
  have hcleanF :
      Rpi.cleanup_legacy_rpi_layout (Rpi.ensure_repo_layout fs) true
          Rpi.featureListFile = some f := by
    simp only [Rpi.cleanup_legacy_rpi_layout, List.foldl, m1, m2, m3, Rpi.fsRemove,
      Rpi.fsRemoveTree]
    rw [if_neg (by decide), if_neg (by decide), if_neg (by decide), if_neg (by decide),
      if_neg (by decide)]
    exact ef
  have hexR : Rpi.fsExists
      (Rpi.cleanup_legacy_rpi_layout (Rpi.ensure_repo_layout fs) true)
      Rpi.researchFile = true := by
    unfold Rpi.fsExists
    rw [hcleanR]
    rfl
  have hexP : Rpi.fsExists
      (Rpi.cleanup_legacy_rpi_layout (Rpi.ensure_repo_layout fs) true)
      Rpi.planFile = true := by
    unfold Rpi.fsExists
    rw [hcleanP]
    rfl
  have hexF : Rpi.fsExists
      (Rpi.cleanup_legacy_rpi_layout (Rpi.ensure_repo_layout fs) true)
      Rpi.featureListFile = true := by
    unfold Rpi.fsExists
    rw [hcleanF]
    rfl
  have hinit : Rpi.init_rpi_artifacts fs task false =
      (Rpi.cleanup_legacy_rpi_layout (Rpi.ensure_repo_layout fs) true,
        ⟨[], [Rpi.researchFile, Rpi.planFile, Rpi.featureListFile]⟩) := by
    simp [Rpi.init_rpi_artifacts, hexR, hexP, hexF]
  rw [hinit]
  exact ⟨hcleanR, hcleanP, hcleanF, rfl, rfl⟩

/-- Witness for C9 at a concrete three-file state. -/
theorem init_rpi_artifacts_idempotent_witness :
    (Rpi.init_rpi_artifacts
        (fun q => if q = Rpi.researchFile then some "R"
          else if q = Rpi.planFile then some "P"
          else if q = Rpi.featureListFile then some "F" else none)
        "demo task" false).2.skipped =
      [Rpi.researchFile, Rpi.planFile, Rpi.featureListFile] :=
  (init_rpi_artifacts_idempotent
    (fun q => if q = Rpi.researchFile then some "R"
      else if q = Rpi.planFile then some "P"
      else if q = Rpi.featureListFile then some "F" else none)
    "demo task" "R" "P" "F" rfl rfl rfl).2.2.2.2

theorem validateLoop_allowed_mem :
    ∀ (cmds : List String) (command : String) (segments : List String),
      (Security.validateLoop command segments cmds).allowed = true →
      ∀ c ∈ cmds, c ∈ Security.ALLOWED_COMMANDS := by
  intro cmds
  induction cmds with
  | nil =>
    intro command segments h c hc
    cases hc
  | cons x rest ih =>
    intro command segments h c hc
    simp only [Security.validateLoop] at h
    by_cases hmem : x ∈ Security.ALLOWED_COMMANDS
    · rw [if_neg (not_not_intro hmem)] at h
      rcases List.mem_cons.mp hc with rfl | hc
      · exact hmem
      · by_cases hextra : x ∈ Security.COMMANDS_NEEDING_EXTRA_VALIDATION
        · rw [if_pos hextra] at h
          split at h
          all_goals split at h
          all_goals
            first
              | exact ih command segments h c hc
              | (rename_i hra
                 exact absurd h hra)
        · rw [if_neg hextra] at h
          exact ih command segments h c hc
    · rw [if_pos hmem] at h
      simp at h

theorem extractSegmentLoop_ne_nil_tokenizes :
    ∀ (segs : List String) (acc : List String),
      Security.extractSegmentLoop segs acc ≠ [] →
      ∀ seg ∈ segs, Security.pyStrip seg ≠ "" →
        (Security.shlexSplit (Security.pyStrip seg)).isSome = true := by
  intro segs
  induction segs with
  | nil =>
    intro acc h seg hseg
    cases hseg
  | cons s rest ih =>
    intro acc h seg hseg hstrip
    simp only [Security.extractSegmentLoop] at h
    rcases List.mem_cons.mp hseg with rfl | hseg
    · rw [if_neg hstrip] at h
      split at h
      · exact absurd rfl h
      · next tokens heq =>
        rw [heq]
        rfl
    · by_cases hempty : Security.pyStrip s = ""
      · rw [if_pos hempty] at h
        exact ih acc h seg hseg hstrip
      · rw [if_neg hempty] at h
        split at h
        · exact absurd rfl h
        · next tokens heq =>
          by_cases htok : tokens = []
          · rw [if_pos htok] at h
            exact ih acc h seg hseg hstrip
          · rw [if_neg htok] at h
            exact ih _ h seg hseg hstrip

/-- C6: `validate_command` returns Valid only if every segment of the
input tokenizes without quoting errors (a `shlex` failure in any
segment empties the extraction, which fails closed) and every extracted
command basename is on the fixed allow-list. -/
theorem validate_command_valid_only_if (command : String)
    (h : (Security.validate_command command).allowed = true) :
    (∀ seg ∈ Security.splitSemi command, Security.pyStrip seg ≠ "" →
      (Security.shlexSplit (Security.pyStrip seg)).isSome = true) ∧
      Security.extract_commands command ≠ [] ∧
      ∀ c ∈ Security.extract_commands command, c ∈ Security.ALLOWED_COMMANDS := by
  unfold Security.validate_command at h
  by_cases hne : Security.extract_commands command = []
  · rw [if_pos hne] at h
    simp at h
  · rw [if_neg hne] at h
    have hne2 : Security.extractSegmentLoop (Security.splitSemi command) [] ≠ [] := hne
    exact ⟨extractSegmentLoop_ne_nil_tokenizes _ [] hne2, hne,
      validateLoop_allowed_mem _ _ _ h⟩

/-- Witness for C6: a concrete validated command line. -/
theorem validate_command_valid_only_if_witness :
    (∀ seg ∈ Security.splitSemi "ls -la && git status",
      Security.pyStrip seg ≠ "" →
        (Security.shlexSplit (Security.pyStrip seg)).isSome = true) ∧
      Security.extract_commands "ls -la && git status" ≠ [] ∧
      ∀ c ∈ Security.extract_commands "ls -la && git status",
        c ∈ Security.ALLOWED_COMMANDS :=
  validate_command_valid_only_if "ls -la && git status" (by decide)

/-- Witness for C3 at a fully-done four-task ledger whose required
evaluation gate fails: the run is not completed, with the failure
recorded in the metrics. -/
theorem run_completed_flag_requires_ledger_and_eval_witness :
    (Orchestrator.run_task_finalize
        (some ⟨1, [⟨"t1", "phase_0", "P", "d", [], true⟩]⟩) "run-1" 4 0
        ⟨false, "default"⟩ true).completed = false := by
  have h := (run_completed_flag_requires_ledger_and_eval
    (some ⟨1, [⟨"t1", "phase_0", "P", "d", [], true⟩]⟩) "run-1" 4 0
    ⟨false, "default"⟩ true).1
  by_cases hc : (Orchestrator.run_task_finalize
      (some ⟨1, [⟨"t1", "phase_0", "P", "d", [], true⟩]⟩) "run-1" 4 0
      ⟨false, "default"⟩ true).completed = true
  · have := (h.mp hc).2.2 rfl
    simp at this
  · simpa using hc

end Autoeval
